import Mathlib

/-!
Shallow embedding of the dronsim quadrotor simulator.

The embedding covers the three core modules of the repository:
the rigid-body drone physics (class Drone), the Lyapunov-based cascaded
PID controller (class LyapunovController), and the score/best-tracking
part of the gain-search training mode (class TrainingMode).

JavaScript IEEE-754 doubles are modelled as real numbers; Math.PI,
Math.sin, Math.cos, Math.atan2 and Math.sqrt are modelled by the exact
functions on the reals.  The two sequential while loops of
normalizeAngle are modelled by well-founded recursion on the number of
remaining 2*pi shifts.
-/

noncomputable section

open Classical

namespace DronSim

/-- A 3-component vector, the shape of the position, velocity,
angular-velocity, force and torque objects of the source. -/
@[ext]
structure Vec3 where
  x : ℝ
  y : ℝ
  z : ℝ

/-- Euler angles, the shape of the rotation objects of the source. -/
@[ext]
structure Euler where
  roll : ℝ
  pitch : ℝ
  yaw : ℝ

/-- The 4 motor speed fractions, in source order
[front, right, back, left] (0-передний, 1-правый, 2-задний, 3-левый). -/
@[ext]
structure Motor4 where
  front : ℝ
  right : ℝ
  back : ℝ
  left : ℝ

/-- Drone.gravity: set to 9.81 in the constructor and never mutated. -/
def gravity : ℝ := 9.81

/-- Drone.dragCoefficient: set to 0.1 in the constructor, never mutated. -/
def dragCoefficient : ℝ := 0.1

/-- The local constant angularDrag = 0.1 of Drone.calculateTotalTorque. -/
def angularDrag : ℝ := 0.1

/-- First while loop of normalizeAngle:
while (angle > Math.PI) angle -= 2 * Math.PI. -/
def normUp (a : ℝ) : ℝ :=
  if h : a > Real.pi then normUp (a - 2 * Real.pi) else a
termination_by (Int.ceil ((a - Real.pi) / (2 * Real.pi))).toNat
decreasing_by
  have hpi : (0:ℝ) < 2 * Real.pi := by positivity
  have key : (a - 2 * Real.pi - Real.pi) / (2 * Real.pi) =
      (a - Real.pi) / (2 * Real.pi) - 1 := by
    field_simp
    ring
  have hpos : 0 < Int.ceil ((a - Real.pi) / (2 * Real.pi)) :=
    Int.ceil_pos.mpr (div_pos (by linarith) hpi)
  rw [key, Int.ceil_sub_one]
  omega

/-- Second while loop of normalizeAngle:
while (angle < -Math.PI) angle += 2 * Math.PI. -/
def normDn (a : ℝ) : ℝ :=
  if h : a < -Real.pi then normDn (a + 2 * Real.pi) else a
termination_by (Int.ceil ((-Real.pi - a) / (2 * Real.pi))).toNat
decreasing_by
  have hpi : (0:ℝ) < 2 * Real.pi := by positivity
  have key : (-Real.pi - (a + 2 * Real.pi)) / (2 * Real.pi) =
      (-Real.pi - a) / (2 * Real.pi) - 1 := by
    field_simp
    ring
  have hpos : 0 < Int.ceil ((-Real.pi - a) / (2 * Real.pi)) :=
    Int.ceil_pos.mpr (div_pos (by linarith) hpi)
  rw [key, Int.ceil_sub_one]
  omega

/-- normalizeAngle: the two sequential while loops of the source
(identical copies in class Drone and class LyapunovController). -/
def normalizeAngle (a : ℝ) : ℝ := normDn (normUp a)

/-- Math.atan2(y, x), modelled on the reals by the usual case split
(the IEEE signed-zero and NaN cases collapse onto the 0 result). -/
def atan2 (y x : ℝ) : ℝ :=
  if 0 < x then Real.arctan (y / x)
  else if x < 0 ∧ 0 ≤ y then Real.arctan (y / x) + Real.pi
  else if x < 0 ∧ y < 0 then Real.arctan (y / x) - Real.pi
  else if x = 0 ∧ 0 < y then Real.pi / 2
  else if x = 0 ∧ y < 0 then -(Real.pi / 2)
  else 0

/-- The clamp pattern Math.max(0, Math.min(1, x)) used for motor speeds. -/
def clamp01 (x : ℝ) : ℝ := max 0 (min 1 x)

/-! ### Class Drone (rigid-body physics) -/

/-- The state and configuration fields of class Drone.  The constructor
constants gravity and dragCoefficient are modelled as the global
definitions above since no code path mutates them. -/
structure Drone where
  mass : ℝ
  motorThrust : ℝ
  motorDistance : ℝ
  position : Vec3
  velocity : Vec3
  rotation : Euler
  angularVelocity : Vec3
  motorSpeeds : Motor4
  positionHistory : List Vec3
  rotationHistory : List Euler

namespace Drone

/-- Drone.calculateInertia: point-mass model, motorMass = mass / 8.
The frameMass local of the source is computed but never used. -/
def inertia (d : Drone) : Vec3 :=
  { x := 2 * (d.mass / 8) * d.motorDistance ^ 2
  , y := 2 * (d.mass / 8) * d.motorDistance ^ 2
  , z := 4 * (d.mass / 8) * d.motorDistance ^ 2 }

/-- Drone.calculateTotalForce. -/
def calculateTotalForce (d : Drone) (externalForces : Vec3) : Vec3 :=
  let totalThrust := (d.motorSpeeds.front + d.motorSpeeds.right +
      d.motorSpeeds.back + d.motorSpeeds.left) * d.motorThrust
  let thrustX := totalThrust * Real.sin d.rotation.pitch
  let thrustY := totalThrust * Real.cos d.rotation.pitch * Real.cos d.rotation.roll
  let thrustZ := -totalThrust * Real.sin d.rotation.roll * Real.cos d.rotation.pitch
  { x := thrustX + 0 + (-dragCoefficient * d.velocity.x) + externalForces.x
  , y := thrustY + (-(d.mass * gravity)) + (-dragCoefficient * d.velocity.y) + externalForces.y
  , z := thrustZ + 0 + (-dragCoefficient * d.velocity.z) + externalForces.z }

/-- Drone.calculateTotalTorque. -/
def calculateTotalTorque (d : Drone) (externalTorques : Vec3) : Vec3 :=
  let torqueX := (d.motorSpeeds.right - d.motorSpeeds.left) * d.motorThrust * d.motorDistance
  let torqueZ := (d.motorSpeeds.front - d.motorSpeeds.back) * d.motorThrust * d.motorDistance
  let torqueY := ((d.motorSpeeds.front + d.motorSpeeds.back) -
      (d.motorSpeeds.right + d.motorSpeeds.left)) * d.motorThrust * 0.05
  { x := torqueX - angularDrag * d.angularVelocity.x + externalTorques.x
  , y := torqueY - angularDrag * d.angularVelocity.y + externalTorques.y
  , z := torqueZ - angularDrag * d.angularVelocity.z + externalTorques.z }

/-- Velocity after the v = v + a*dt step of Drone.update (before the
floor clamp touches the y component). -/
def newVelocity (d : Drone) (dt : ℝ) (externalForces : Vec3) : Vec3 :=
  let F := d.calculateTotalForce externalForces
  { x := d.velocity.x + F.x / d.mass * dt
  , y := d.velocity.y + F.y / d.mass * dt
  , z := d.velocity.z + F.z / d.mass * dt }

/-- Position after the p = p + v*dt step of Drone.update (using the new
velocity, before the floor clamp). -/
def newPositionRaw (d : Drone) (dt : ℝ) (externalForces : Vec3) : Vec3 :=
  let v := d.newVelocity dt externalForces
  { x := d.position.x + v.x * dt
  , y := d.position.y + v.y * dt
  , z := d.position.z + v.z * dt }

/-- Angular velocity after the omega = omega + alpha*dt step of Drone.update. -/
def newAngularVelocity (d : Drone) (dt : ℝ) (externalTorques : Vec3) : Vec3 :=
  let tau := d.calculateTotalTorque externalTorques
  { x := d.angularVelocity.x + tau.x / d.inertia.x * dt
  , y := d.angularVelocity.y + tau.y / d.inertia.y * dt
  , z := d.angularVelocity.z + tau.z / d.inertia.z * dt }

/-- Rotation after the theta = theta + omega*dt step and normalization;
note the axis relabeling of the source: roll rides on angular x,
pitch on angular z, yaw on angular y. -/
def newRotation (d : Drone) (dt : ℝ) (externalTorques : Vec3) : Euler :=
  let w := d.newAngularVelocity dt externalTorques
  { roll := normalizeAngle (d.rotation.roll + w.x * dt)
  , pitch := normalizeAngle (d.rotation.pitch + w.z * dt)
  , yaw := normalizeAngle (d.rotation.yaw + w.y * dt) }

/-- Drone.update: one integration step including the floor clamp at
height 0.1 and the history buffers (capped at 100 entries via shift). -/
def update (d : Drone) (dt : ℝ) (externalForces externalTorques : Vec3) : Drone :=
  let v := d.newVelocity dt externalForces
  let p := d.newPositionRaw dt externalForces
  let pos : Vec3 := { x := p.x, y := if p.y < 0.1 then 0.1 else p.y, z := p.z }
  let vel : Vec3 := { x := v.x, y := if p.y < 0.1 then max 0 v.y else v.y, z := v.z }
  let rot := d.newRotation dt externalTorques
  let ph := d.positionHistory ++ [pos]
  let rh := d.rotationHistory ++ [rot]
  { d with
    position := pos
    velocity := vel
    angularVelocity := d.newAngularVelocity dt externalTorques
    rotation := rot
    positionHistory := if ph.length > 100 then ph.tail else ph
    rotationHistory := if ph.length > 100 then rh.tail else rh }

/-- Drone.setMotorSpeeds: each of the four input values is clamped to [0,1]. -/
def setMotorSpeeds (d : Drone) (speeds : Motor4) : Drone :=
  { d with motorSpeeds :=
    { front := clamp01 speeds.front
    , right := clamp01 speeds.right
    , back := clamp01 speeds.back
    , left := clamp01 speeds.left } }

end Drone

/-- The vertical velocity one free-fall tick produces before the floor
clamp: with all four motor speeds zero and no external force the y
acceleration is (-mass*g - dragCoefficient*vy)/mass. -/
def freefallVy (d : Drone) (dt : ℝ) : ℝ :=
  d.velocity.y - (gravity + dragCoefficient * d.velocity.y / d.mass) * dt

/-- The raw y position the same tick produces (before the floor clamp). -/
def freefallY (d : Drone) (dt : ℝ) : ℝ :=
  d.position.y + freefallVy d dt * dt

/-! ### Class LyapunovController -/

/-- LyapunovController.maxIntegralError: 10.0 in the constructor, never
mutated (updateParameters only touches the six gains). -/
def maxIntegralError : ℝ := 10.0

/-- LyapunovController.maxControlForce: 20.0, never mutated. -/
def maxControlForce : ℝ := 20.0

/-- LyapunovController.maxControlTorque: 5.0, never mutated. -/
def maxControlTorque : ℝ := 5.0

/-- The anti-windup clamp
Math.max(-maxIntegralError, Math.min(maxIntegralError, x)). -/
def clampIntegral (x : ℝ) : ℝ := max (-maxIntegralError) (min maxIntegralError x)

/-- The mutable fields of class LyapunovController. -/
structure LyapunovController where
  kpPos : ℝ
  kdPos : ℝ
  kiPos : ℝ
  kpRot : ℝ
  kdRot : ℝ
  kiRot : ℝ
  targetPosition : Vec3
  targetRotation : Euler
  integralPosError : Vec3
  integralRotError : Euler
  prevPosError : Vec3
  prevRotError : Euler
  lyapunovValue : ℝ

namespace LyapunovController

/-- LyapunovController.calculatePositionError. -/
def calculatePositionError (c : LyapunovController) (dronePosition : Vec3) : Vec3 :=
  { x := c.targetPosition.x - dronePosition.x
  , y := c.targetPosition.y - dronePosition.y
  , z := c.targetPosition.z - dronePosition.z }

/-- LyapunovController.calculateRotationError. -/
def calculateRotationError (c : LyapunovController) (droneRotation : Euler) : Euler :=
  { roll := normalizeAngle (c.targetRotation.roll - droneRotation.roll)
  , pitch := normalizeAngle (c.targetRotation.pitch - droneRotation.pitch)
  , yaw := normalizeAngle (c.targetRotation.yaw - droneRotation.yaw) }

/-- LyapunovController.calculateLyapunovFunction (the returned value;
the assignment to this.lyapunovValue is modelled in computeControl). -/
def calculateLyapunovFunction (c : LyapunovController) (d : Drone) : ℝ :=
  let posError := c.calculatePositionError d.position
  let rotError := c.calculateRotationError d.rotation
  0.5 * ((posError.x * posError.x + posError.y * posError.y + posError.z * posError.z) +
    (rotError.roll * rotError.roll + rotError.pitch * rotError.pitch +
      rotError.yaw * rotError.yaw) +
    (d.velocity.x * d.velocity.x + d.velocity.y * d.velocity.y +
      d.velocity.z * d.velocity.z) +
    (d.angularVelocity.x * d.angularVelocity.x + d.angularVelocity.y * d.angularVelocity.y +
      d.angularVelocity.z * d.angularVelocity.z))

/-- The magnitude cap applied to the control force and control torque:
uniform rescale when the Euclidean norm exceeds the bound. -/
def capMagnitude (bound : ℝ) (v : Vec3) : Vec3 :=
  if Real.sqrt (v.x * v.x + v.y * v.y + v.z * v.z) > bound then
    { x := v.x * (bound / Real.sqrt (v.x * v.x + v.y * v.y + v.z * v.z))
    , y := v.y * (bound / Real.sqrt (v.x * v.x + v.y * v.y + v.z * v.z))
    , z := v.z * (bound / Real.sqrt (v.x * v.x + v.y * v.y + v.z * v.z)) }
  else v

/-- The position integral accumulator after the += error*dt update and
the anti-windup clamp of computePositionControl. -/
def posIntegralNext (c : LyapunovController) (d : Drone) (dt : ℝ) : Vec3 :=
  { x := clampIntegral (c.integralPosError.x + (c.calculatePositionError d.position).x * dt)
  , y := clampIntegral (c.integralPosError.y + (c.calculatePositionError d.position).y * dt)
  , z := clampIntegral (c.integralPosError.z + (c.calculatePositionError d.position).z * dt) }

/-- The P + I + D force of computePositionControl before the magnitude cap. -/
def posForceRaw (c : LyapunovController) (d : Drone) (dt : ℝ) : Vec3 :=
  { x := c.kpPos * (c.calculatePositionError d.position).x +
      c.kiPos * (c.posIntegralNext d dt).x + -c.kdPos * d.velocity.x
  , y := c.kpPos * (c.calculatePositionError d.position).y +
      c.kiPos * (c.posIntegralNext d dt).y + -c.kdPos * d.velocity.y
  , z := c.kpPos * (c.calculatePositionError d.position).z +
      c.kiPos * (c.posIntegralNext d dt).z + -c.kdPos * d.velocity.z }

/-- LyapunovController.computePositionControl: returns the capped force
and the controller with its integral and previous-error fields mutated. -/
def computePositionControl (c : LyapunovController) (d : Drone) (dt : ℝ) :
    Vec3 × LyapunovController :=
  (capMagnitude maxControlForce (c.posForceRaw d dt),
   { c with
     integralPosError := c.posIntegralNext d dt
     prevPosError := c.calculatePositionError d.position })

/-- The rotation integral accumulator after the += error*dt update and
the anti-windup clamp of computeRotationControl. -/
def rotIntegralNext (c : LyapunovController) (d : Drone) (dt : ℝ) : Euler :=
  { roll := clampIntegral (c.integralRotError.roll +
      (c.calculateRotationError d.rotation).roll * dt)
  , pitch := clampIntegral (c.integralRotError.pitch +
      (c.calculateRotationError d.rotation).pitch * dt)
  , yaw := clampIntegral (c.integralRotError.yaw +
      (c.calculateRotationError d.rotation).yaw * dt) }

/-- The P + I + D torque of computeRotationControl before the magnitude
cap; note the source packs roll on x, yaw on y and pitch on z, and the
D-term pairs roll with angular x, pitch with angular z, yaw with angular y. -/
def rotTorqueRaw (c : LyapunovController) (d : Drone) (dt : ℝ) : Vec3 :=
  { x := c.kpRot * (c.calculateRotationError d.rotation).roll +
      c.kiRot * (c.rotIntegralNext d dt).roll + -c.kdRot * d.angularVelocity.x
  , y := c.kpRot * (c.calculateRotationError d.rotation).yaw +
      c.kiRot * (c.rotIntegralNext d dt).yaw + -c.kdRot * d.angularVelocity.y
  , z := c.kpRot * (c.calculateRotationError d.rotation).pitch +
      c.kiRot * (c.rotIntegralNext d dt).pitch + -c.kdRot * d.angularVelocity.z }

/-- LyapunovController.computeRotationControl: returns the capped torque
and the controller with its integral and previous-error fields mutated. -/
def computeRotationControl (c : LyapunovController) (d : Drone) (dt : ℝ) :
    Vec3 × LyapunovController :=
  (capMagnitude maxControlTorque (c.rotTorqueRaw d dt),
   { c with
     integralRotError := c.rotIntegralNext d dt
     prevRotError := c.calculateRotationError d.rotation })

/-- The controller after this.lyapunovValue = V, the first mutation
performed by computeControl. -/
def afterLyapunov (c : LyapunovController) (d : Drone) : LyapunovController :=
  { c with lyapunovValue := c.calculateLyapunovFunction d }

/-- totalThrust = drone.mass * drone.gravity + controlForce.y. -/
def totalThrustOf (c : LyapunovController) (d : Drone) (dt : ℝ) : ℝ :=
  d.mass * gravity + (c.computePositionControl d dt).1.y

/-- The tilt clamp Math.max(-maxTiltAngle, Math.min(maxTiltAngle, x))
with maxTiltAngle = Math.PI / 6. -/
def clampTilt (x : ℝ) : ℝ := max (-(Real.pi / 6)) (min (Real.pi / 6) x)

/-- desiredPitch of computeControl (0 unless totalThrust > 0.1). -/
def desiredPitchOf (c : LyapunovController) (d : Drone) (dt : ℝ) : ℝ :=
  if c.totalThrustOf d dt > 0.1 then
    clampTilt (atan2 (c.computePositionControl d dt).1.x (c.totalThrustOf d dt))
  else 0

/-- desiredRoll of computeControl (0 unless totalThrust > 0.1). -/
def desiredRollOf (c : LyapunovController) (d : Drone) (dt : ℝ) : ℝ :=
  if c.totalThrustOf d dt > 0.1 then
    clampTilt (atan2 (-(c.computePositionControl d dt).1.z) (c.totalThrustOf d dt))
  else 0

/-- The controller with the roll/pitch targets temporarily overridden by
the desired tilt (yaw target untouched), as computeControl mutates it
just before calling computeRotationControl. -/
def overriddenCtrl (c : LyapunovController) (d : Drone) (dt : ℝ) : LyapunovController :=
  { (c.computePositionControl d dt).2 with
    targetRotation :=
      { roll := c.desiredRollOf d dt
      , pitch := c.desiredPitchOf d dt
      , yaw := (c.computePositionControl d dt).2.targetRotation.yaw } }

/-- The control torque computeControl obtains from computeRotationControl
on the overridden controller. -/
def controlTorqueOf (c : LyapunovController) (d : Drone) (dt : ℝ) : Vec3 :=
  ((c.overriddenCtrl d dt).computeRotationControl d dt).1

/-- The controller state after computeRotationControl and the restore of
the original target rotation (copied before the override). -/
def finalCtrlOf (c : LyapunovController) (d : Drone) (dt : ℝ) : LyapunovController :=
  { ((c.overriddenCtrl d dt).computeRotationControl d dt).2 with
    targetRotation := (c.computePositionControl d dt).2.targetRotation }

/-- baseThrust = (drone.mass * drone.gravity) / (4 * drone.motorThrust). -/
def baseThrustOf (d : Drone) : ℝ := d.mass * gravity / (4 * d.motorThrust)

/-- The four motor speeds of computeControl before the [0,1] clamp. -/
def motorMixRaw (c : LyapunovController) (d : Drone) (dt : ℝ) : Motor4 :=
  { front := baseThrustOf d + (c.computePositionControl d dt).1.y / (4 * d.motorThrust) +
      (c.controlTorqueOf d dt).z / (2 * d.motorThrust * d.motorDistance) +
      (c.controlTorqueOf d dt).y / (4 * d.motorThrust * 0.05)
  , right := baseThrustOf d + (c.computePositionControl d dt).1.y / (4 * d.motorThrust) +
      (c.controlTorqueOf d dt).x / (2 * d.motorThrust * d.motorDistance) -
      (c.controlTorqueOf d dt).y / (4 * d.motorThrust * 0.05)
  , back := baseThrustOf d + (c.computePositionControl d dt).1.y / (4 * d.motorThrust) -
      (c.controlTorqueOf d dt).z / (2 * d.motorThrust * d.motorDistance) +
      (c.controlTorqueOf d dt).y / (4 * d.motorThrust * 0.05)
  , left := baseThrustOf d + (c.computePositionControl d dt).1.y / (4 * d.motorThrust) -
      (c.controlTorqueOf d dt).x / (2 * d.motorThrust * d.motorDistance) -
      (c.controlTorqueOf d dt).y / (4 * d.motorThrust * 0.05) }

/-- The result record of LyapunovController.computeControl, together
with the controller state after the call (the source mutates this). -/
structure ControlResult where
  motorSpeeds : Motor4
  controlForce : Vec3
  controlTorque : Vec3
  desiredRoll : ℝ
  desiredPitch : ℝ
  ctrl : LyapunovController

/-- LyapunovController.computeControl, assembled from the pieces above
in the source order: Lyapunov value first, then position PID, tilt
setpoints, overridden rotation PID, target restore, motor mixing with
the final [0,1] clamp. -/
def computeControl (c : LyapunovController) (d : Drone) (dt : ℝ) : ControlResult :=
  let cV := c.afterLyapunov d
  { motorSpeeds :=
      { front := clamp01 (cV.motorMixRaw d dt).front
      , right := clamp01 (cV.motorMixRaw d dt).right
      , back := clamp01 (cV.motorMixRaw d dt).back
      , left := clamp01 (cV.motorMixRaw d dt).left }
  , controlForce := (cV.computePositionControl d dt).1
  , controlTorque := cV.controlTorqueOf d dt
  , desiredRoll := cV.desiredRollOf d dt
  , desiredPitch := cV.desiredPitchOf d dt
  , ctrl := cV.finalCtrlOf d dt }

end LyapunovController

/-! ### Class TrainingMode (gain search): score and best tracking -/

namespace TrainingMode

/-- The local constant threshold = 0.5 of TrainingMode.computeScore. -/
def threshold : ℝ := 0.5

/-- The inner stability loop of computeScore: scans j from its first
argument up to (exclusive) its second and fails as soon as a trace value
exceeds threshold * 2 (the break of the source). -/
def stableCheck (l : List ℝ) (j stop : ℕ) : Bool :=
  if j < stop then
    (if l.getD j 0 > threshold * 2 then false else stableCheck l (j + 1) stop)
  else true
termination_by stop - j

/-- The outer settling-time loop of computeScore: the first index i with
trace(i) < threshold whose following window (up to 100 samples, capped
at the trace end) never exceeds threshold * 2; the trace length when no
such index exists. -/
def settleLoop (l : List ℝ) (i : ℕ) : ℕ :=
  if i < l.length then
    (if l.getD i 0 < threshold ∧ stableCheck l i (min (i + 100) l.length) = true
     then i
     else settleLoop l (i + 1))
  else l.length
termination_by l.length - i

/-- settlingTime as computed by TrainingMode.computeScore. -/
def settlingTime (l : List ℝ) : ℕ := settleLoop l 0

/-- Math.max(...lyapunovValues): the maximum of the trace.  The source
produces -Infinity on an empty trace; every claim restricts to non-empty
traces, for which the fold below is the exact value. -/
def maxValue : List ℝ → ℝ
  | [] => 0
  | h :: t => t.foldl max h

/-- lyapunovValues.slice(-100): the final min(100, length) samples. -/
def lastN (l : List ℝ) (n : ℕ) : List ℝ := l.drop (l.length - n)

/-- TrainingMode.computeScore: the weighted combination
0.4 * integral / length + 0.3 * settlingTime / length + 0.2 * max
+ 0.1 * finalError. -/
def computeScore (l : List ℝ) : ℝ :=
  0.4 * l.sum / l.length + 0.3 * (settlingTime l : ℝ) / l.length +
    0.2 * maxValue l + 0.1 * ((lastN l 100).sum / (lastN l 100).length)

/-- The six PID gains searched by TrainingMode (the params objects). -/
structure Gains where
  kpPos : ℝ
  kdPos : ℝ
  kiPos : ℝ
  kpRot : ℝ
  kdRot : ℝ
  kiRot : ℝ

/-- The best-result update of TrainingMode.runIterations: the running
(bestScore, bestParams) pair is replaced exactly when the trial score is
strictly lower. -/
def updateBest (best : ℝ × Gains) (trial : ℝ × Gains) : ℝ × Gains :=
  if trial.1 < best.1 then trial else best

/-- The best pair after a sequence of iterations, folding updateBest. -/
def runBest (init : ℝ × Gains) (trials : List (ℝ × Gains)) : ℝ × Gains :=
  trials.foldl updateBest init

/-- The settling-time index as the specification sentence words it:
the first index after which V stays below the threshold for the
following 100 steps (capped at the trace end), the trace length if no
such index exists.  This definition follows the spec text, to be
compared against the source loop settleLoop. -/
def specSettleLoop (l : List ℝ) (i : ℕ) : ℕ :=
  if i < l.length then
    (if ∀ j, i ≤ j → j < min (i + 100) l.length → l.getD j 0 < threshold
     then i
     else specSettleLoop l (i + 1))
  else l.length
termination_by l.length - i

/-- The composite score as the specification sentence words it, with the
spec reading of the settling-time index.  Refinement counterpart of
computeScore. -/
def computeScoreSpec (l : List ℝ) : ℝ :=
  0.4 * l.sum / l.length + 0.3 * (specSettleLoop l 0 : ℝ) / l.length +
    0.2 * maxValue l + 0.1 * ((lastN l 100).sum / (lastN l 100).length)

/-- The property the source settling loop selects the first index of:
the value is below threshold and the following window of up to 100
samples (capped at the trace end) never exceeds twice the threshold. -/
def SettledAt (l : List ℝ) (i : ℕ) : Prop :=
  l.getD i 0 < threshold ∧
    ∀ j, i ≤ j → j < min (i + 100) l.length → l.getD j 0 ≤ threshold * 2

end TrainingMode

/-! ### Concrete instances used by witnesses and counterexamples -/

/-- A drone in default configuration, hovering pose at the default
start height, zero motion, motors off. -/
def hoverDrone : Drone :=
  { mass := 1
  , motorThrust := 2.5
  , motorDistance := 0.25
  , position := ⟨0, 2, 0⟩
  , velocity := ⟨0, 0, 0⟩
  , rotation := ⟨0, 0, 0⟩
  , angularVelocity := ⟨0, 0, 0⟩
  , motorSpeeds := ⟨0, 0, 0, 0⟩
  , positionHistory := []
  , rotationHistory := [] }

/-- The hover drone placed at ground level (to engage the floor clamp). -/
def fallingDrone : Drone := { hoverDrone with position := ⟨0, 0, 0⟩ }

/-- The hover drone high up with an upward initial vertical velocity. -/
def driftDrone : Drone := { hoverDrone with position := ⟨0, 100, 0⟩, velocity := ⟨0, 1, 0⟩ }

/-- A controller with the constructor-default gains, target at the
drone start pose, level target orientation, zero accumulators. -/
def hoverCtrl : LyapunovController :=
  { kpPos := 10
  , kdPos := 5
  , kiPos := 0.1
  , kpRot := 8
  , kdRot := 4
  , kiRot := 0.05
  , targetPosition := ⟨0, 2, 0⟩
  , targetRotation := ⟨0, 0, 0⟩
  , integralPosError := ⟨0, 0, 0⟩
  , integralRotError := ⟨0, 0, 0⟩
  , prevPosError := ⟨0, 0, 0⟩
  , prevRotError := ⟨0, 0, 0⟩
  , lyapunovValue := 0 }

/-- A controller whose target orientation has a nonzero roll, with
simple rotation gains. -/
def tiltCtrl : LyapunovController :=
  { hoverCtrl with kpRot := 1, kdRot := 0, kiRot := 0, targetRotation := ⟨1, 0, 0⟩ }

/-- The drone sitting exactly at tiltCtrl's target pose. -/
def tiltDrone : Drone := { hoverDrone with rotation := ⟨1, 0, 0⟩ }

/-- The constructor-default gain vector. -/
def defaultGains : TrainingMode.Gains := ⟨10, 5, 0.1, 8, 4, 0.05⟩

/-- A second gain vector, used as a trial in witnesses. -/
def otherGains : TrainingMode.Gains := ⟨12, 6, 0.2, 9, 5, 0.1⟩

/-! ## Theorems

First the helper lemmas about angle normalization, clamps and the
magnitude cap, then the claim theorems C1 to C10 with their witnesses
and counterexamples.
-/

theorem ceil_shift_down_lt (a : ℝ) (h : a > Real.pi) :
    (Int.ceil ((a - 2 * Real.pi - Real.pi) / (2 * Real.pi))).toNat <
      (Int.ceil ((a - Real.pi) / (2 * Real.pi))).toNat := by
  have hpi : (0:ℝ) < 2 * Real.pi := by positivity
  have key : (a - 2 * Real.pi - Real.pi) / (2 * Real.pi) =
      (a - Real.pi) / (2 * Real.pi) - 1 := by
    field_simp
    ring
  have hpos : 0 < Int.ceil ((a - Real.pi) / (2 * Real.pi)) :=
    Int.ceil_pos.mpr (div_pos (by linarith) hpi)
  rw [key, Int.ceil_sub_one]
  omega

theorem ceil_shift_up_lt (a : ℝ) (h : a < -Real.pi) :
    (Int.ceil ((-Real.pi - (a + 2 * Real.pi)) / (2 * Real.pi))).toNat <
      (Int.ceil ((-Real.pi - a) / (2 * Real.pi))).toNat := by
  have hpi : (0:ℝ) < 2 * Real.pi := by positivity
  have key : (-Real.pi - (a + 2 * Real.pi)) / (2 * Real.pi) =
      (-Real.pi - a) / (2 * Real.pi) - 1 := by
    field_simp
    ring
  have hpos : 0 < Int.ceil ((-Real.pi - a) / (2 * Real.pi)) :=
    Int.ceil_pos.mpr (div_pos (by linarith) hpi)
  rw [key, Int.ceil_sub_one]
  omega

theorem normUp_le (a : ℝ) : normUp a ≤ Real.pi := by
  rw [normUp]
  split_ifs with h
  · exact normUp_le (a - 2 * Real.pi)
  · linarith
termination_by (Int.ceil ((a - Real.pi) / (2 * Real.pi))).toNat
decreasing_by exact ceil_shift_down_lt a h

theorem normDn_ge (a : ℝ) : -Real.pi ≤ normDn a := by
  rw [normDn]
  split_ifs with h
  · exact normDn_ge (a + 2 * Real.pi)
  · linarith
termination_by (Int.ceil ((-Real.pi - a) / (2 * Real.pi))).toNat
decreasing_by exact ceil_shift_up_lt a h

theorem normDn_le (a : ℝ) (ha : a ≤ Real.pi) : normDn a ≤ Real.pi := by
  rw [normDn]
  split_ifs with h
  · exact normDn_le (a + 2 * Real.pi) (by linarith)
  · exact ha
termination_by (Int.ceil ((-Real.pi - a) / (2 * Real.pi))).toNat
decreasing_by exact ceil_shift_up_lt a h

theorem normUp_shift (a : ℝ) : ∃ n : ℕ, normUp a = a - 2 * Real.pi * n := by
  rw [normUp]
  split_ifs with h
  · obtain ⟨n, hn⟩ := normUp_shift (a - 2 * Real.pi)
    refine ⟨n + 1, ?_⟩
    rw [hn]
    push_cast
    ring
  · exact ⟨0, by push_cast; ring⟩
termination_by (Int.ceil ((a - Real.pi) / (2 * Real.pi))).toNat
decreasing_by exact ceil_shift_down_lt a h

theorem normDn_shift (a : ℝ) : ∃ n : ℕ, normDn a = a + 2 * Real.pi * n := by
  rw [normDn]
  split_ifs with h
  · obtain ⟨n, hn⟩ := normDn_shift (a + 2 * Real.pi)
    refine ⟨n + 1, ?_⟩
    rw [hn]
    push_cast
    ring
  · exact ⟨0, by push_cast; ring⟩
termination_by (Int.ceil ((-Real.pi - a) / (2 * Real.pi))).toNat
decreasing_by exact ceil_shift_up_lt a h

theorem normalizeAngle_ge (a : ℝ) : -Real.pi ≤ normalizeAngle a :=
  normDn_ge (normUp a)

theorem normalizeAngle_le (a : ℝ) : normalizeAngle a ≤ Real.pi :=
  normDn_le (normUp a) (normUp_le a)

theorem normUp_of_le (a : ℝ) (h : a ≤ Real.pi) : normUp a = a := by
  rw [normUp]
  exact dif_neg (by linarith)

theorem normDn_of_ge (a : ℝ) (h : -Real.pi ≤ a) : normDn a = a := by
  rw [normDn]
  exact dif_neg (by linarith)

theorem normalizeAngle_of_mem (a : ℝ) (h1 : -Real.pi ≤ a) (h2 : a ≤ Real.pi) :
    normalizeAngle a = a := by
  unfold normalizeAngle
  rw [normUp_of_le a h2, normDn_of_ge a h1]

theorem normalizeAngle_zero : normalizeAngle 0 = 0 :=
  normalizeAngle_of_mem 0 (by linarith [Real.pi_pos]) (le_of_lt Real.pi_pos)

/-- C3: the original claim asserts the open-below range -pi < theta; the
input -pi refutes it: both while loops leave -pi untouched. -/
theorem normalizeAngle_neg_pi_counterexample :
    normalizeAngle (-Real.pi) = -Real.pi ∧
      ¬ (-Real.pi < normalizeAngle (-Real.pi)) := by
  have h := normalizeAngle_of_mem (-Real.pi) (le_refl _) (by linarith [Real.pi_pos])
  exact ⟨h, by rw [h]; exact lt_irrefl _⟩

/-- C3 (amended): angle normalization maps every real input into the
closed interval [-pi, pi], and so do the three Euler angles of the drone
after every update tick. -/
theorem normalizeAngle_range_amended :
    (∀ a : ℝ, -Real.pi ≤ normalizeAngle a ∧ normalizeAngle a ≤ Real.pi) ∧
    (∀ (d : Drone) (dt : ℝ) (extF extT : Vec3),
      (-Real.pi ≤ (d.update dt extF extT).rotation.roll ∧
        (d.update dt extF extT).rotation.roll ≤ Real.pi) ∧
      (-Real.pi ≤ (d.update dt extF extT).rotation.pitch ∧
        (d.update dt extF extT).rotation.pitch ≤ Real.pi) ∧
      (-Real.pi ≤ (d.update dt extF extT).rotation.yaw ∧
        (d.update dt extF extT).rotation.yaw ≤ Real.pi)) := by
  refine ⟨fun a => ⟨normalizeAngle_ge a, normalizeAngle_le a⟩, ?_⟩
  intro d dt extF extT
  have hrot : (d.update dt extF extT).rotation = d.newRotation dt extT := rfl
  rw [hrot]
  unfold Drone.newRotation
  exact ⟨⟨normalizeAngle_ge _, normalizeAngle_le _⟩,
    ⟨normalizeAngle_ge _, normalizeAngle_le _⟩,
    ⟨normalizeAngle_ge _, normalizeAngle_le _⟩⟩

/-- C10: the while-loop normalization terminates on every real input:
the embedded normalizeAngle is total, shifts its input by an integer
multiple of 2*pi, and lands in [-pi, pi]. -/
theorem normalizeAngle_total :
    ∀ a : ℝ, ∃ k : ℤ, normalizeAngle a = a + 2 * Real.pi * k ∧
      -Real.pi ≤ normalizeAngle a ∧ normalizeAngle a ≤ Real.pi := by
  intro a
  obtain ⟨n1, h1⟩ := normUp_shift a
  obtain ⟨n2, h2⟩ := normDn_shift (normUp a)
  refine ⟨(n2 : ℤ) - n1, ?_, normalizeAngle_ge a, normalizeAngle_le a⟩
  unfold normalizeAngle
  rw [h2, h1]
  push_cast
  ring

theorem clamp01_nonneg (x : ℝ) : 0 ≤ clamp01 x := le_max_left 0 _

theorem clamp01_le_one (x : ℝ) : clamp01 x ≤ 1 :=
  max_le zero_le_one (min_le_left 1 x)

theorem clamp01_of_mem (x : ℝ) (h0 : 0 ≤ x) (h1 : x ≤ 1) : clamp01 x = x := by
  unfold clamp01
  rw [min_eq_right h1, max_eq_right h0]

/-- C4: the end-to-end motor clamp.  setMotorSpeeds stores each input
value clamped to [0,1] (in particular [2, -1, 0.5, 0.5] is stored as
[1, 0, 0.5, 0.5]) and every motor speed computeControl returns lies in
[0,1] whatever the control force and torque are. -/
theorem motor_speeds_clamped :
    (∀ (d : Drone) (speeds : Motor4),
      (d.setMotorSpeeds speeds).motorSpeeds.front = clamp01 speeds.front ∧
      (d.setMotorSpeeds speeds).motorSpeeds.right = clamp01 speeds.right ∧
      (d.setMotorSpeeds speeds).motorSpeeds.back = clamp01 speeds.back ∧
      (d.setMotorSpeeds speeds).motorSpeeds.left = clamp01 speeds.left ∧
      0 ≤ (d.setMotorSpeeds speeds).motorSpeeds.front ∧
      (d.setMotorSpeeds speeds).motorSpeeds.front ≤ 1 ∧
      0 ≤ (d.setMotorSpeeds speeds).motorSpeeds.right ∧
      (d.setMotorSpeeds speeds).motorSpeeds.right ≤ 1 ∧
      0 ≤ (d.setMotorSpeeds speeds).motorSpeeds.back ∧
      (d.setMotorSpeeds speeds).motorSpeeds.back ≤ 1 ∧
      0 ≤ (d.setMotorSpeeds speeds).motorSpeeds.left ∧
      (d.setMotorSpeeds speeds).motorSpeeds.left ≤ 1) ∧
    (∀ d : Drone,
      (d.setMotorSpeeds ⟨2, -1, 0.5, 0.5⟩).motorSpeeds = ⟨1, 0, 0.5, 0.5⟩) ∧
    (∀ (c : LyapunovController) (d : Drone) (dt : ℝ),
      (0 ≤ (c.computeControl d dt).motorSpeeds.front ∧
        (c.computeControl d dt).motorSpeeds.front ≤ 1) ∧
      (0 ≤ (c.computeControl d dt).motorSpeeds.right ∧
        (c.computeControl d dt).motorSpeeds.right ≤ 1) ∧
      (0 ≤ (c.computeControl d dt).motorSpeeds.back ∧
        (c.computeControl d dt).motorSpeeds.back ≤ 1) ∧
      (0 ≤ (c.computeControl d dt).motorSpeeds.left ∧
        (c.computeControl d dt).motorSpeeds.left ≤ 1)) := by
  refine ⟨?_, ?_, ?_⟩
  · intro d speeds
    refine ⟨rfl, rfl, rfl, rfl, ?_⟩
    exact ⟨clamp01_nonneg _, clamp01_le_one _, clamp01_nonneg _, clamp01_le_one _,
      clamp01_nonneg _, clamp01_le_one _, clamp01_nonneg _, clamp01_le_one _⟩
  · intro d
    show Motor4.mk (clamp01 2) (clamp01 (-1)) (clamp01 0.5) (clamp01 0.5) = _
    have h2 : clamp01 2 = 1 := by norm_num [clamp01]
    have hm1 : clamp01 (-1) = 0 := by norm_num [clamp01]
    have hh : clamp01 0.5 = 0.5 := by norm_num [clamp01]
    rw [h2, hm1, hh]
  · intro c d dt
    exact ⟨⟨clamp01_nonneg _, clamp01_le_one _⟩, ⟨clamp01_nonneg _, clamp01_le_one _⟩,
      ⟨clamp01_nonneg _, clamp01_le_one _⟩, ⟨clamp01_nonneg _, clamp01_le_one _⟩⟩

/-- Case analysis of the floor clamp inside Drone.update, shared by the
claims about the clamp. -/
theorem update_clamp_cases (d : Drone) (dt : ℝ) (extF extT : Vec3) :
    0.1 ≤ (d.update dt extF extT).position.y ∧
    ((d.newPositionRaw dt extF).y < 0.1 →
      (d.update dt extF extT).position.y = 0.1 ∧
      (d.update dt extF extT).velocity.y = max 0 (d.newVelocity dt extF).y ∧
      0 ≤ (d.update dt extF extT).velocity.y) ∧
    (¬ (d.newPositionRaw dt extF).y < 0.1 →
      (d.update dt extF extT).position.y = (d.newPositionRaw dt extF).y ∧
      (d.update dt extF extT).velocity.y = (d.newVelocity dt extF).y) ∧
    (d.update dt extF extT).velocity.x = (d.newVelocity dt extF).x ∧
    (d.update dt extF extT).velocity.z = (d.newVelocity dt extF).z := by
  have hpos : (d.update dt extF extT).position.y =
      (if (d.newPositionRaw dt extF).y < 0.1 then (0.1:ℝ)
       else (d.newPositionRaw dt extF).y) := rfl
  have hvel : (d.update dt extF extT).velocity.y =
      (if (d.newPositionRaw dt extF).y < 0.1 then max 0 (d.newVelocity dt extF).y
       else (d.newVelocity dt extF).y) := rfl
  by_cases h : (d.newPositionRaw dt extF).y < 0.1
  · rw [hpos, hvel, if_pos h, if_pos h]
    exact ⟨le_refl _, fun _ => ⟨rfl, rfl, le_max_left 0 _⟩,
      fun hc => absurd h hc, rfl, rfl⟩
  · rw [hpos, hvel, if_neg h, if_neg h]
    exact ⟨not_lt.mp h, fun hc => absurd hc h, fun _ => ⟨rfl, rfl⟩, rfl, rfl⟩

/-- C8: the floor clamp.  After every update the altitude is at least
0.1; when the clamp engages (raw new y below 0.1) the position is set to
exactly 0.1 and a downward vertical velocity is zeroed (not reflected),
while the x and z velocity components are exactly the unclamped ones. -/
theorem floor_clamp_invariant :
    ∀ (d : Drone) (dt : ℝ) (extF extT : Vec3),
      0.1 ≤ (d.update dt extF extT).position.y ∧
      ((d.newPositionRaw dt extF).y < 0.1 →
        (d.update dt extF extT).position.y = 0.1 ∧
        (d.update dt extF extT).velocity.y = max 0 (d.newVelocity dt extF).y ∧
        0 ≤ (d.update dt extF extT).velocity.y) ∧
      (¬ (d.newPositionRaw dt extF).y < 0.1 →
        (d.update dt extF extT).position.y = (d.newPositionRaw dt extF).y ∧
        (d.update dt extF extT).velocity.y = (d.newVelocity dt extF).y) ∧
      (d.update dt extF extT).velocity.x = (d.newVelocity dt extF).x ∧
      (d.update dt extF extT).velocity.z = (d.newVelocity dt extF).z :=
  fun d dt extF extT => update_clamp_cases d dt extF extT

/-- C8 witness: a concrete drone one tick above the floor clamp. -/
theorem floor_clamp_invariant_witness :
    (fallingDrone.newPositionRaw 1 ⟨0, 0, 0⟩).y < 0.1 ∧
      (fallingDrone.update 1 ⟨0, 0, 0⟩ ⟨0, 0, 0⟩).position.y = 0.1 ∧
      0 ≤ (fallingDrone.update 1 ⟨0, 0, 0⟩ ⟨0, 0, 0⟩).velocity.y := by
  have hraw : (fallingDrone.newPositionRaw 1 ⟨0, 0, 0⟩).y < 0.1 := by
    norm_num [fallingDrone, hoverDrone, Drone.newPositionRaw, Drone.newVelocity,
      Drone.calculateTotalForce, dragCoefficient, gravity]
  have h := floor_clamp_invariant fallingDrone 1 ⟨0, 0, 0⟩ ⟨0, 0, 0⟩
  exact ⟨hraw, (h.2.1 hraw).1, (h.2.1 hraw).2.2⟩

/-- C2 counterexample: with zero motors and zero external forces but a
nonzero vertical velocity, one update changes velocity.y by more than
g*dt (the drag term), while the floor clamp does not engage. -/
theorem freefall_exact_g_counterexample :
    (driftDrone.update 1 ⟨0, 0, 0⟩ ⟨0, 0, 0⟩).velocity.y ≠
      driftDrone.velocity.y - 9.81 * 1 ∧
    0.1 ≤ (driftDrone.update 1 ⟨0, 0, 0⟩ ⟨0, 0, 0⟩).position.y ∧
    (driftDrone.update 1 ⟨0, 0, 0⟩ ⟨0, 0, 0⟩).position.y ≠ 0.1 := by
  have hvy : (driftDrone.newVelocity 1 ⟨0, 0, 0⟩).y = -8.91 := by
    norm_num [driftDrone, hoverDrone, Drone.newVelocity,
      Drone.calculateTotalForce, dragCoefficient, gravity]
  have hraw : (driftDrone.newPositionRaw 1 ⟨0, 0, 0⟩).y = 91.09 := by
    rw [Drone.newPositionRaw]
    simp only
    rw [hvy]
    norm_num [driftDrone, hoverDrone]
  have hnc : ¬ (driftDrone.newPositionRaw 1 ⟨0, 0, 0⟩).y < 0.1 := by
    rw [hraw]
    norm_num
  have h := update_clamp_cases driftDrone 1 ⟨0, 0, 0⟩ ⟨0, 0, 0⟩
  obtain ⟨_, _, hno, _, _⟩ := h
  refine ⟨?_, ?_, ?_⟩
  · rw [(hno hnc).2, hvy]
    norm_num [driftDrone, hoverDrone]
  · rw [(hno hnc).1, hraw]
    norm_num
  · rw [(hno hnc).1, hraw]
    norm_num

/-- C2 (amended): with zero motors and zero external force/torque the
pre-clamp vertical velocity change per tick is exactly
-(g + dragCoefficient*vy/mass)*dt, which equals -g*dt exactly when the
current vertical velocity is zero; once the floor clamp engages the
position is exactly 0.1 and the vertical velocity is nonnegative. -/
theorem freefall_amended (d : Drone) (dt : ℝ) (hm : 0 < d.mass)
    (hms : d.motorSpeeds = ⟨0, 0, 0, 0⟩) :
    (d.newVelocity dt ⟨0, 0, 0⟩).y = freefallVy d dt ∧
    (d.newPositionRaw dt ⟨0, 0, 0⟩).y = freefallY d dt ∧
    (¬ freefallY d dt < 0.1 →
      (d.update dt ⟨0, 0, 0⟩ ⟨0, 0, 0⟩).velocity.y = freefallVy d dt) ∧
    (freefallY d dt < 0.1 →
      (d.update dt ⟨0, 0, 0⟩ ⟨0, 0, 0⟩).position.y = 0.1 ∧
      0 ≤ (d.update dt ⟨0, 0, 0⟩ ⟨0, 0, 0⟩).velocity.y) ∧
    (d.velocity.y = 0 → freefallVy d dt = d.velocity.y - gravity * dt) := by
  have hmne : d.mass ≠ 0 := ne_of_gt hm
  have hvy : (d.newVelocity dt ⟨0, 0, 0⟩).y = freefallVy d dt := by
    rw [Drone.newVelocity]
    simp only [Drone.calculateTotalForce, hms]
    rw [freefallVy]
    field_simp
    ring
  have hry : (d.newPositionRaw dt ⟨0, 0, 0⟩).y = freefallY d dt := by
    rw [Drone.newPositionRaw]
    simp only
    rw [hvy, freefallY]
  have h := update_clamp_cases d dt ⟨0, 0, 0⟩ ⟨0, 0, 0⟩
  refine ⟨hvy, hry, ?_, ?_, ?_⟩
  · intro hnc
    rw [← hry] at hnc
    rw [(h.2.2.1 hnc).2, hvy]
  · intro hc
    rw [← hry] at hc
    exact ⟨(h.2.1 hc).1, (h.2.1 hc).2.2⟩
  · intro h0
    rw [freefallVy, h0]
    simp

/-- C2 witness: the amended statement at the concrete falling drone
(zero initial velocity): the first tick loses exactly g*dt and the
clamp engages with position exactly 0.1 and nonnegative velocity. -/
theorem freefall_amended_witness :
    freefallVy fallingDrone 1 = fallingDrone.velocity.y - gravity * 1 ∧
    (fallingDrone.update 1 ⟨0, 0, 0⟩ ⟨0, 0, 0⟩).position.y = 0.1 ∧
    0 ≤ (fallingDrone.update 1 ⟨0, 0, 0⟩ ⟨0, 0, 0⟩).velocity.y := by
  have h := freefall_amended fallingDrone 1 (by norm_num [fallingDrone, hoverDrone]) rfl
  have hc : freefallY fallingDrone 1 < 0.1 := by
    norm_num [freefallY, freefallVy, fallingDrone, hoverDrone, gravity, dragCoefficient]
  exact ⟨h.2.2.2.2 rfl, (h.2.2.2.1 hc).1, (h.2.2.2.1 hc).2⟩

/-- C9: the temporary roll/pitch target override of the cascade is
restored before computeControl returns: the controller's target
rotation (all three angles) and target position after the call are the
values from before the call, for every drone state and dt. -/
theorem target_restore_after_computeControl :
    ∀ (c : LyapunovController) (d : Drone) (dt : ℝ),
      (c.computeControl d dt).ctrl.targetRotation = c.targetRotation ∧
      (c.computeControl d dt).ctrl.targetPosition = c.targetPosition :=
  fun _ _ _ => ⟨rfl, rfl⟩

theorem abs_clampIntegral_le (x : ℝ) : |clampIntegral x| ≤ maxIntegralError := by
  rw [abs_le]
  constructor
  · exact le_max_left _ _
  · refine max_le ?_ (min_le_left _ _)
    rw [maxIntegralError]
    norm_num

/-- C5: anti-windup.  After any call to computeControl each of the six
integral accumulators has magnitude at most maxIntegralError = 10,
whenever the prior accumulators were within the bound. -/
theorem antiwindup_invariant (c : LyapunovController) (d : Drone) (dt : ℝ)
    (_h1 : |c.integralPosError.x| ≤ 10) (_h2 : |c.integralPosError.y| ≤ 10)
    (_h3 : |c.integralPosError.z| ≤ 10) (_h4 : |c.integralRotError.roll| ≤ 10)
    (_h5 : |c.integralRotError.pitch| ≤ 10) (_h6 : |c.integralRotError.yaw| ≤ 10) :
    |(c.computeControl d dt).ctrl.integralPosError.x| ≤ 10 ∧
    |(c.computeControl d dt).ctrl.integralPosError.y| ≤ 10 ∧
    |(c.computeControl d dt).ctrl.integralPosError.z| ≤ 10 ∧
    |(c.computeControl d dt).ctrl.integralRotError.roll| ≤ 10 ∧
    |(c.computeControl d dt).ctrl.integralRotError.pitch| ≤ 10 ∧
    |(c.computeControl d dt).ctrl.integralRotError.yaw| ≤ 10 := by
  have key : ∀ x : ℝ, |clampIntegral x| ≤ 10 := by
    intro x
    have h := abs_clampIntegral_le x
    rw [maxIntegralError] at h
    linarith
  exact ⟨key _, key _, key _, key _, key _, key _⟩

/-- C5 witness: the anti-windup bound at the concrete hover setup. -/
theorem antiwindup_invariant_witness :
    |(hoverCtrl.computeControl hoverDrone 1).ctrl.integralPosError.x| ≤ 10 ∧
    |(hoverCtrl.computeControl hoverDrone 1).ctrl.integralPosError.y| ≤ 10 ∧
    |(hoverCtrl.computeControl hoverDrone 1).ctrl.integralPosError.z| ≤ 10 ∧
    |(hoverCtrl.computeControl hoverDrone 1).ctrl.integralRotError.roll| ≤ 10 ∧
    |(hoverCtrl.computeControl hoverDrone 1).ctrl.integralRotError.pitch| ≤ 10 ∧
    |(hoverCtrl.computeControl hoverDrone 1).ctrl.integralRotError.yaw| ≤ 10 :=
  antiwindup_invariant hoverCtrl hoverDrone 1
    (by norm_num [hoverCtrl]) (by norm_num [hoverCtrl]) (by norm_num [hoverCtrl])
    (by norm_num [hoverCtrl]) (by norm_num [hoverCtrl]) (by norm_num [hoverCtrl])

namespace TrainingMode

theorem le_foldl_max (t : List ℝ) (a : ℝ) : a ≤ t.foldl max a := by
  induction t generalizing a with
  | nil => exact le_refl a
  | cons b ts ih =>
    calc a ≤ max a b := le_max_left a b
    _ ≤ (b :: ts).tail.foldl max (max a b) := ih (max a b)

theorem maxValue_nonneg (l : List ℝ) (hne : l ≠ []) (hnn : ∀ x ∈ l, 0 ≤ x) :
    0 ≤ maxValue l := by
  match l with
  | [] => exact absurd rfl hne
  | h :: t =>
    calc (0:ℝ) ≤ h := hnn h (List.mem_cons_self h t)
    _ ≤ t.foldl max h := le_foldl_max t h

theorem computeScore_nonneg (l : List ℝ) (hne : l ≠ []) (hnn : ∀ x ∈ l, 0 ≤ x) :
    0 ≤ computeScore l := by
  unfold computeScore
  have hsum : 0 ≤ l.sum := List.sum_nonneg hnn
  have hlen : (0:ℝ) ≤ l.length := Nat.cast_nonneg _
  have hsettle : (0:ℝ) ≤ (settlingTime l : ℝ) := Nat.cast_nonneg _
  have hmax : 0 ≤ maxValue l := maxValue_nonneg l hne hnn
  have hlast : 0 ≤ (lastN l 100).sum :=
    List.sum_nonneg fun x hx => hnn x (List.mem_of_mem_drop hx)
  have hlastlen : (0:ℝ) ≤ (lastN l 100).length := Nat.cast_nonneg _
  have t1 : 0 ≤ 0.4 * l.sum / (l.length : ℝ) :=
    div_nonneg (by linarith) hlen
  have t2 : 0 ≤ 0.3 * (settlingTime l : ℝ) / (l.length : ℝ) :=
    div_nonneg (by linarith) hlen
  have t3 : 0 ≤ 0.2 * maxValue l := by linarith
  have t4 : 0 ≤ 0.1 * ((lastN l 100).sum / (lastN l 100).length) := by
    have := div_nonneg hlast hlastlen
    linarith
  linarith

theorem runBest_fst_le (trials : List (ℝ × Gains)) (init : ℝ × Gains) :
    (runBest init trials).1 ≤ init.1 := by
  induction trials generalizing init with
  | nil => exact le_refl _
  | cons t ts ih =>
    have hstep : (updateBest init t).1 ≤ init.1 := by
      unfold updateBest
      split_ifs with h
      · exact le_of_lt h
      · exact le_refl _
    calc (runBest (updateBest init t) ts).1 ≤ (updateBest init t).1 := ih _
    _ ≤ init.1 := hstep

end TrainingMode

/-- C7: for every non-empty trace of nonnegative Lyapunov values the
score is nonnegative, and the running best of the gain search is
non-increasing: it is replaced, together with its gain vector, exactly
when a trial scores strictly lower. -/
theorem score_nonneg_best_monotone (l : List ℝ) (hne : l ≠ [])
    (hnn : ∀ x ∈ l, 0 ≤ x) (best trial : ℝ × TrainingMode.Gains)
    (trials : List (ℝ × TrainingMode.Gains)) :
    0 ≤ TrainingMode.computeScore l ∧
    (TrainingMode.updateBest best trial).1 ≤ best.1 ∧
    (trial.1 < best.1 → TrainingMode.updateBest best trial = trial) ∧
    (¬ trial.1 < best.1 → TrainingMode.updateBest best trial = best) ∧
    (TrainingMode.runBest best trials).1 ≤ best.1 := by
  refine ⟨TrainingMode.computeScore_nonneg l hne hnn, ?_, ?_, ?_,
    TrainingMode.runBest_fst_le trials best⟩
  · unfold TrainingMode.updateBest
    split_ifs with h
    · exact le_of_lt h
    · exact le_refl _
  · intro h
    unfold TrainingMode.updateBest
    rw [if_pos h]
  · intro h
    unfold TrainingMode.updateBest
    rw [if_neg h]

/-- C7 witness: the concrete trace [2] and a concrete best/trial pair. -/
theorem score_nonneg_best_monotone_witness :
    0 ≤ TrainingMode.computeScore [2] ∧
    (TrainingMode.updateBest ((3:ℝ), defaultGains) ((1:ℝ), otherGains)).1 ≤ ((3:ℝ), defaultGains).1 ∧
    (((1:ℝ), otherGains).1 < ((3:ℝ), defaultGains).1 →
      TrainingMode.updateBest ((3:ℝ), defaultGains) ((1:ℝ), otherGains) = ((1:ℝ), otherGains)) ∧
    (¬ ((1:ℝ), otherGains).1 < ((3:ℝ), defaultGains).1 →
      TrainingMode.updateBest ((3:ℝ), defaultGains) ((1:ℝ), otherGains) = ((3:ℝ), defaultGains)) ∧
    (TrainingMode.runBest ((3:ℝ), defaultGains) [((1:ℝ), otherGains)]).1 ≤ ((3:ℝ), defaultGains).1 :=
  score_nonneg_best_monotone [2] (by simp)
    (by intro x hx; rw [List.mem_singleton] at hx; rw [hx]; norm_num)
    ((3:ℝ), defaultGains) ((1:ℝ), otherGains) [((1:ℝ), otherGains)]

namespace TrainingMode

theorem stableCheck_eq_true_iff (l : List ℝ) (j stop : ℕ) :
    stableCheck l j stop = true ↔
      ∀ k, j ≤ k → k < stop → l.getD k 0 ≤ threshold * 2 := by
  rw [stableCheck]
  split_ifs with h1 h2
  · simp only [Bool.false_eq_true, false_iff]
    push_neg
    exact ⟨j, le_refl j, h1, h2⟩
  · rw [stableCheck_eq_true_iff l (j + 1) stop]
    constructor
    · intro H k hjk hk
      rcases Nat.eq_or_lt_of_le hjk with heq | hlt
      · rw [← heq]
        exact not_lt.mp h2
      · exact H k hlt hk
    · intro H k hk1 hk2
      exact H k (Nat.le_of_succ_le hk1) hk2
  · constructor
    · intro _ k hjk hk
      omega
    · intro _
      rfl
termination_by stop - j

theorem settleLoop_le (l : List ℝ) (i : ℕ) : settleLoop l i ≤ l.length := by
  rw [settleLoop]
  split_ifs with h1 h2
  · exact le_of_lt h1
  · exact settleLoop_le l (i + 1)
  · exact le_refl _
termination_by l.length - i

theorem settleLoop_settledAt (l : List ℝ) (i : ℕ)
    (h : settleLoop l i < l.length) : SettledAt l (settleLoop l i) := by
  rw [settleLoop] at h ⊢
  split_ifs at h ⊢ with h1 h2
  · exact ⟨h2.1, (stableCheck_eq_true_iff l i _).mp h2.2⟩
  · exact settleLoop_settledAt l (i + 1) h
  · omega
termination_by l.length - i

theorem settleLoop_min (l : List ℝ) (i k : ℕ) (hik : i ≤ k)
    (hk : k < settleLoop l i) : ¬ SettledAt l k := by
  rw [settleLoop] at hk
  split_ifs at hk with h1 h2
  · omega
  · rcases Nat.eq_or_lt_of_le hik with heq | hlt
    · intro hs
      rw [← heq] at hs
      exact h2 ⟨hs.1, (stableCheck_eq_true_iff l i _).mpr hs.2⟩
    · exact settleLoop_min l (i + 1) k hlt hk
  · omega
termination_by l.length - i

end TrainingMode

/-- C6 counterexample: on the trace [0.4, 0.8] the source score differs
from the score described by the specification sentence.  The source
settles at index 0 (0.4 < 0.5 and the whole window stays at or below
2*threshold = 1.0) while the spec reading (stays below the threshold
itself) never settles, giving settling index 2. -/
theorem computeScore_spec_counterexample :
    TrainingMode.computeScore [0.4, 0.8] = 0.46 ∧
    TrainingMode.computeScoreSpec [0.4, 0.8] = 0.76 ∧
    TrainingMode.computeScore [0.4, 0.8] ≠ TrainingMode.computeScoreSpec [0.4, 0.8] := by
  have hlen : List.length [(0.4:ℝ), 0.8] = 2 := by simp
  have hstable :
      TrainingMode.stableCheck [0.4, 0.8] 0 (min (0 + 100) (List.length [(0.4:ℝ), 0.8])) = true := by
    rw [hlen]
    rw [TrainingMode.stableCheck]
    rw [if_pos (by norm_num)]
    rw [if_neg (by norm_num [TrainingMode.threshold])]
    rw [TrainingMode.stableCheck]
    rw [if_pos (by norm_num)]
    rw [if_neg (by norm_num [TrainingMode.threshold])]
    rw [TrainingMode.stableCheck]
    rw [if_neg (by norm_num)]
  have hsettle : TrainingMode.settlingTime [0.4, 0.8] = 0 := by
    rw [TrainingMode.settlingTime, TrainingMode.settleLoop]
    rw [if_pos (by rw [hlen]; norm_num)]
    rw [if_pos ⟨by norm_num [TrainingMode.threshold], hstable⟩]
  have hspec : TrainingMode.specSettleLoop [0.4, 0.8] 0 = 2 := by
    rw [TrainingMode.specSettleLoop, hlen]
    rw [if_pos (by norm_num)]
    rw [if_neg ?c1]
    case c1 =>
      intro hall
      have h1 := hall 1 (by norm_num) (by norm_num)
      rw [TrainingMode.threshold] at h1
      norm_num at h1
    rw [TrainingMode.specSettleLoop, hlen]
    rw [if_pos (by norm_num)]
    rw [if_neg ?c2]
    case c2 =>
      intro hall
      have h1 := hall 1 (by norm_num) (by norm_num)
      rw [TrainingMode.threshold] at h1
      norm_num at h1
    rw [TrainingMode.specSettleLoop, hlen]
    rw [if_neg (by norm_num)]
  have hmax : TrainingMode.maxValue [0.4, 0.8] = 0.8 := by
    show List.foldl max 0.4 [0.8] = 0.8
    simp only [List.foldl]
    norm_num
  have hlast : TrainingMode.lastN [0.4, 0.8] 100 = [0.4, 0.8] := by
    rw [TrainingMode.lastN]
    rfl
  have h1 : TrainingMode.computeScore [0.4, 0.8] = 0.46 := by
    rw [TrainingMode.computeScore, hsettle, hmax, hlast]
    norm_num
  have h2 : TrainingMode.computeScoreSpec [0.4, 0.8] = 0.76 := by
    rw [TrainingMode.computeScoreSpec, hspec, hmax, hlast]
    norm_num
  exact ⟨h1, h2, by rw [h1, h2]; norm_num⟩

/-- C6 (amended): the score is the weighted sum
0.4*(mean V) + 0.3*(settling index / length) + 0.2*(max V)
+ 0.1*(mean of the final up-to-100 samples), where the settling index is
the first index whose value is below the threshold (0.5) and whose
following window of up to 100 samples stays at or below twice the
threshold, the trace length if no such index exists. -/
theorem computeScore_amended (l : List ℝ) (_hne : l ≠ []) :
    TrainingMode.computeScore l =
      0.4 * (l.sum / l.length) + 0.3 * ((TrainingMode.settlingTime l : ℝ) / l.length) +
      0.2 * TrainingMode.maxValue l +
      0.1 * ((TrainingMode.lastN l 100).sum / (TrainingMode.lastN l 100).length) ∧
    TrainingMode.settlingTime l ≤ l.length ∧
    (TrainingMode.settlingTime l < l.length →
      TrainingMode.SettledAt l (TrainingMode.settlingTime l)) ∧
    (∀ k, k < TrainingMode.settlingTime l → ¬ TrainingMode.SettledAt l k) := by
  refine ⟨?_, TrainingMode.settleLoop_le l 0, ?_, ?_⟩
  · rw [TrainingMode.computeScore]
    ring
  · exact TrainingMode.settleLoop_settledAt l 0
  · intro k hk
    exact TrainingMode.settleLoop_min l 0 k (Nat.zero_le k) hk

/-- C6 witness: the amended characterization at the concrete trace [1]. -/
theorem computeScore_amended_witness :
    TrainingMode.computeScore [1] =
      0.4 * (List.sum [1] / (List.length [1] : ℕ)) +
      0.3 * ((TrainingMode.settlingTime [1] : ℝ) / (List.length [1] : ℕ)) +
      0.2 * TrainingMode.maxValue [1] +
      0.1 * ((TrainingMode.lastN [1] 100).sum / (TrainingMode.lastN [1] 100).length) ∧
    TrainingMode.settlingTime [1] ≤ List.length [1] ∧
    (TrainingMode.settlingTime [1] < List.length [1] →
      TrainingMode.SettledAt [1] (TrainingMode.settlingTime [1])) ∧
    (∀ k, k < TrainingMode.settlingTime [1] → ¬ TrainingMode.SettledAt [1] k) :=
  computeScore_amended [1] (by simp)

namespace LyapunovController

theorem capMagnitude_zero (b : ℝ) : capMagnitude b ⟨0, 0, 0⟩ = ⟨0, 0, 0⟩ := by
  unfold capMagnitude
  split_ifs with h
  · ext <;> simp
  · rfl

theorem clampIntegral_zero : clampIntegral 0 = 0 := by
  norm_num [clampIntegral, maxIntegralError]

theorem clampTilt_zero : clampTilt 0 = 0 := by
  unfold clampTilt
  rw [min_eq_right (by positivity)]
  rw [max_eq_right (by linarith [Real.pi_pos])]

theorem positionError_zero (c : LyapunovController) (d : Drone)
    (hpos : d.position = c.targetPosition) :
    c.calculatePositionError d.position = ⟨0, 0, 0⟩ := by
  rw [hpos]
  unfold calculatePositionError
  ext <;> simp

theorem computePositionControl_fst_zero (c : LyapunovController) (d : Drone) (dt : ℝ)
    (hpos : d.position = c.targetPosition) (hvel : d.velocity = ⟨0, 0, 0⟩)
    (hint : c.integralPosError = ⟨0, 0, 0⟩) :
    (c.computePositionControl d dt).1 = ⟨0, 0, 0⟩ := by
  have herr := positionError_zero c d hpos
  have hintegral : c.posIntegralNext d dt = ⟨0, 0, 0⟩ := by
    unfold posIntegralNext
    rw [herr, hint]
    ext <;> simp [clampIntegral_zero]
  have hraw : c.posForceRaw d dt = ⟨0, 0, 0⟩ := by
    unfold posForceRaw
    rw [herr, hintegral, hvel]
    ext <;> simp
  show capMagnitude maxControlForce (c.posForceRaw d dt) = ⟨0, 0, 0⟩
  rw [hraw]
  exact capMagnitude_zero _

theorem computeRotationControl_fst_zero (c : LyapunovController) (d : Drone) (dt : ℝ)
    (herr : c.calculateRotationError d.rotation = ⟨0, 0, 0⟩)
    (hang : d.angularVelocity = ⟨0, 0, 0⟩)
    (hint : c.integralRotError = ⟨0, 0, 0⟩) :
    (c.computeRotationControl d dt).1 = ⟨0, 0, 0⟩ := by
  have hintegral : c.rotIntegralNext d dt = ⟨0, 0, 0⟩ := by
    unfold rotIntegralNext
    rw [herr, hint]
    ext <;> simp [clampIntegral_zero]
  have hraw : c.rotTorqueRaw d dt = ⟨0, 0, 0⟩ := by
    unfold rotTorqueRaw
    rw [herr, hintegral, hang]
    ext <;> simp
  show capMagnitude maxControlTorque (c.rotTorqueRaw d dt) = ⟨0, 0, 0⟩
  rw [hraw]
  exact capMagnitude_zero _

theorem atan2_zero_of_pos (x : ℝ) (hx : 0 < x) : atan2 0 x = 0 := by
  unfold atan2
  rw [if_pos hx, zero_div, Real.arctan_zero]

theorem desired_zero_of_force_zero (c : LyapunovController) (d : Drone) (dt : ℝ)
    (hf : (c.computePositionControl d dt).1 = ⟨0, 0, 0⟩) :
    c.desiredPitchOf d dt = 0 ∧ c.desiredRollOf d dt = 0 := by
  constructor
  · unfold desiredPitchOf
    split_ifs with h
    · rw [hf]
      show clampTilt (atan2 0 (c.totalThrustOf d dt)) = 0
      rw [atan2_zero_of_pos _ (by linarith), clampTilt_zero]
    · rfl
  · unfold desiredRollOf
    split_ifs with h
    · rw [hf]
      show clampTilt (atan2 (-0) (c.totalThrustOf d dt)) = 0
      rw [neg_zero, atan2_zero_of_pos _ (by linarith), clampTilt_zero]
    · rfl

/-- C1 (amended): at the exact target pose with zero velocity, zero
angular velocity and zero integral accumulators, and with a hover target
orientation (target roll and pitch zero), computeControl reports
Lyapunov value 0 and commands the gravity-compensating base thrust
mass*g/(4*motorThrust) on all four motors whenever that quotient lies in
[0,1].  (Without the hover-target hypotheses the cascade overrides the
roll/pitch target with zero desired tilt and commands unequal motors,
see the counterexample.) -/
theorem hover_base_thrust_amended (c : LyapunovController) (d : Drone) (dt : ℝ)
    (hpos : d.position = c.targetPosition)
    (hrot : d.rotation = c.targetRotation)
    (hvel : d.velocity = ⟨0, 0, 0⟩)
    (hang : d.angularVelocity = ⟨0, 0, 0⟩)
    (hip : c.integralPosError = ⟨0, 0, 0⟩)
    (hir : c.integralRotError = ⟨0, 0, 0⟩)
    (hr0 : c.targetRotation.roll = 0)
    (hp0 : c.targetRotation.pitch = 0)
    (hb0 : 0 ≤ d.mass * gravity / (4 * d.motorThrust))
    (hb1 : d.mass * gravity / (4 * d.motorThrust) ≤ 1) :
    (c.computeControl d dt).ctrl.lyapunovValue = 0 ∧
    (c.computeControl d dt).motorSpeeds =
      ⟨d.mass * gravity / (4 * d.motorThrust), d.mass * gravity / (4 * d.motorThrust),
       d.mass * gravity / (4 * d.motorThrust), d.mass * gravity / (4 * d.motorThrust)⟩ := by
  have herr_r : c.calculateRotationError d.rotation = ⟨0, 0, 0⟩ := by
    rw [hrot]
    unfold calculateRotationError
    ext <;> simp [sub_self, normalizeAngle_zero]
  have hV : c.calculateLyapunovFunction d = 0 := by
    unfold calculateLyapunovFunction
    rw [positionError_zero c d hpos, herr_r, hvel, hang]
    norm_num
  have hforce : ((c.afterLyapunov d).computePositionControl d dt).1 = ⟨0, 0, 0⟩ :=
    computePositionControl_fst_zero (c.afterLyapunov d) d dt hpos hvel hip
  have hdes := desired_zero_of_force_zero (c.afterLyapunov d) d dt hforce
  have htgt : ((c.afterLyapunov d).overriddenCtrl d dt).targetRotation =
      Euler.mk ((c.afterLyapunov d).desiredRollOf d dt)
        ((c.afterLyapunov d).desiredPitchOf d dt) c.targetRotation.yaw := rfl
  have herr_o : ((c.afterLyapunov d).overriddenCtrl d dt).calculateRotationError
      d.rotation = ⟨0, 0, 0⟩ := by
    unfold calculateRotationError
    rw [htgt, hdes.1, hdes.2, hrot, hr0, hp0]
    ext <;> simp [normalizeAngle_zero]
  have htorque : (((c.afterLyapunov d).overriddenCtrl d dt).computeRotationControl d dt).1 =
      ⟨0, 0, 0⟩ :=
    computeRotationControl_fst_zero _ d dt herr_o hang hir
  have hctl : (c.afterLyapunov d).controlTorqueOf d dt = ⟨0, 0, 0⟩ := htorque
  have hmix : (c.afterLyapunov d).motorMixRaw d dt =
      ⟨baseThrustOf d, baseThrustOf d, baseThrustOf d, baseThrustOf d⟩ := by
    unfold motorMixRaw
    rw [hctl, hforce]
    ext <;> simp
  constructor
  · show c.calculateLyapunovFunction d = 0
    exact hV
  · show Motor4.mk (clamp01 ((c.afterLyapunov d).motorMixRaw d dt).front)
      (clamp01 ((c.afterLyapunov d).motorMixRaw d dt).right)
      (clamp01 ((c.afterLyapunov d).motorMixRaw d dt).back)
      (clamp01 ((c.afterLyapunov d).motorMixRaw d dt).left) = _
    rw [hmix]
    have hb2 : clamp01 (baseThrustOf d) = d.mass * gravity / (4 * d.motorThrust) :=
      clamp01_of_mem _ hb0 hb1
    ext <;> exact hb2

/-- C1 witness: the amended statement at the default hover setup. -/
theorem hover_base_thrust_amended_witness :
    (hoverCtrl.computeControl hoverDrone 1).ctrl.lyapunovValue = 0 ∧
    (hoverCtrl.computeControl hoverDrone 1).motorSpeeds =
      ⟨hoverDrone.mass * gravity / (4 * hoverDrone.motorThrust),
       hoverDrone.mass * gravity / (4 * hoverDrone.motorThrust),
       hoverDrone.mass * gravity / (4 * hoverDrone.motorThrust),
       hoverDrone.mass * gravity / (4 * hoverDrone.motorThrust)⟩ :=
  hover_base_thrust_amended hoverCtrl hoverDrone 1 rfl rfl rfl rfl rfl rfl rfl rfl
    (by norm_num [hoverDrone, gravity]) (by norm_num [hoverDrone, gravity])

/-- C1 counterexample: the claim as stated fails when the target
orientation has a nonzero roll.  The drone sits exactly at the target
pose with zero motion and zero accumulators and the base-thrust quotient
lies in [0,1], yet the cascade overrides the roll target with desired
tilt 0, producing a nonzero torque and an unequal right motor. -/
theorem hover_base_thrust_counterexample :
    tiltDrone.position = tiltCtrl.targetPosition ∧
    tiltDrone.rotation = tiltCtrl.targetRotation ∧
    tiltDrone.velocity = ⟨0, 0, 0⟩ ∧
    tiltDrone.angularVelocity = ⟨0, 0, 0⟩ ∧
    tiltCtrl.integralPosError = ⟨0, 0, 0⟩ ∧
    tiltCtrl.integralRotError = ⟨0, 0, 0⟩ ∧
    0 ≤ tiltDrone.mass * gravity / (4 * tiltDrone.motorThrust) ∧
    tiltDrone.mass * gravity / (4 * tiltDrone.motorThrust) ≤ 1 ∧
    (tiltCtrl.computeControl tiltDrone 1).motorSpeeds.right ≠
      tiltDrone.mass * gravity / (4 * tiltDrone.motorThrust) := by
  have hforce : ((tiltCtrl.afterLyapunov tiltDrone).computePositionControl tiltDrone 1).1 =
      ⟨0, 0, 0⟩ :=
    computePositionControl_fst_zero (tiltCtrl.afterLyapunov tiltDrone) tiltDrone 1 rfl rfl rfl
  have hdes := desired_zero_of_force_zero (tiltCtrl.afterLyapunov tiltDrone) tiltDrone 1 hforce
  have hpi1 : (1:ℝ) ≤ Real.pi := by linarith [Real.pi_gt_three]
  have htgt : ((tiltCtrl.afterLyapunov tiltDrone).overriddenCtrl tiltDrone 1).targetRotation =
      Euler.mk ((tiltCtrl.afterLyapunov tiltDrone).desiredRollOf tiltDrone 1)
        ((tiltCtrl.afterLyapunov tiltDrone).desiredPitchOf tiltDrone 1) 0 := rfl
  have hdrot : tiltDrone.rotation = Euler.mk 1 0 0 := rfl
  have herr_o : ((tiltCtrl.afterLyapunov tiltDrone).overriddenCtrl tiltDrone 1).calculateRotationError
      tiltDrone.rotation = ⟨-1, 0, 0⟩ := by
    unfold calculateRotationError
    rw [htgt, hdes.1, hdes.2, hdrot]
    have e1 : normalizeAngle ((0:ℝ) - 1) = -1 := by
      rw [show ((0:ℝ) - 1) = -1 by norm_num]
      exact normalizeAngle_of_mem (-1) (by linarith) (by linarith)
    have e2 : normalizeAngle ((0:ℝ) - 0) = 0 := by
      rw [show ((0:ℝ) - 0) = 0 by norm_num]
      exact normalizeAngle_zero
    ext <;> simp only [e1, e2]
  have hintegral : ((tiltCtrl.afterLyapunov tiltDrone).overriddenCtrl tiltDrone 1).rotIntegralNext
      tiltDrone 1 = ⟨-1, 0, 0⟩ := by
    unfold rotIntegralNext
    rw [herr_o]
    have hi0 : ((tiltCtrl.afterLyapunov tiltDrone).overriddenCtrl tiltDrone 1).integralRotError =
        Euler.mk 0 0 0 := rfl
    rw [hi0]
    ext <;> norm_num [clampIntegral, maxIntegralError]
  have htraw : ((tiltCtrl.afterLyapunov tiltDrone).overriddenCtrl tiltDrone 1).rotTorqueRaw
      tiltDrone 1 = ⟨-1, 0, 0⟩ := by
    unfold rotTorqueRaw
    rw [herr_o, hintegral]
    have hkp : ((tiltCtrl.afterLyapunov tiltDrone).overriddenCtrl tiltDrone 1).kpRot = 1 := rfl
    have hki : ((tiltCtrl.afterLyapunov tiltDrone).overriddenCtrl tiltDrone 1).kiRot = 0 := rfl
    have hkd : ((tiltCtrl.afterLyapunov tiltDrone).overriddenCtrl tiltDrone 1).kdRot = 0 := rfl
    have hav : tiltDrone.angularVelocity = Vec3.mk 0 0 0 := rfl
    rw [hkp, hki, hkd, hav]
    ext <;> norm_num
  have htorque : (((tiltCtrl.afterLyapunov tiltDrone).overriddenCtrl tiltDrone 1).computeRotationControl
      tiltDrone 1).1 = ⟨-1, 0, 0⟩ := by
    show capMagnitude maxControlTorque
      (((tiltCtrl.afterLyapunov tiltDrone).overriddenCtrl tiltDrone 1).rotTorqueRaw tiltDrone 1) =
      ⟨-1, 0, 0⟩
    rw [htraw]
    unfold capMagnitude
    norm_num [maxControlTorque, Real.sqrt_one]
  have hctl : (tiltCtrl.afterLyapunov tiltDrone).controlTorqueOf tiltDrone 1 = ⟨-1, 0, 0⟩ :=
    htorque
  have hmixr : ((tiltCtrl.afterLyapunov tiltDrone).motorMixRaw tiltDrone 1).right = 0.181 := by
    unfold motorMixRaw
    rw [hctl, hforce]
    norm_num [baseThrustOf, tiltDrone, hoverDrone, gravity]
  have hfinal : (tiltCtrl.computeControl tiltDrone 1).motorSpeeds.right =
      clamp01 ((tiltCtrl.afterLyapunov tiltDrone).motorMixRaw tiltDrone 1).right := rfl
  refine ⟨rfl, rfl, rfl, rfl, rfl, rfl, by norm_num [tiltDrone, hoverDrone, gravity],
    by norm_num [tiltDrone, hoverDrone, gravity], ?_⟩
  rw [hfinal, hmixr, clamp01_of_mem _ (by norm_num) (by norm_num)]
  norm_num [tiltDrone, hoverDrone, gravity]

end LyapunovController

end DronSim
